import Mathlib

/-!
Verification development for the dataset-generator pipeline
(src/dataset_generator).  The Python code is shallowly embedded:

* pydantic models (models.py) become plain structures; only the fields
  that some code path reads are kept (`TestCase.parameters` and
  `DatasetExample.input` keys other than `messages` and
  `target_message_index` are never read by any embedded code path and
  are omitted; JSON dictionaries become structures with `Option` fields
  since `.get` may miss).
* pydantic parsing of records loaded from disk is treated as an oracle:
  a raw persisted record is an `Option` of the typed record (`none`
  models a record that fails schema validation).
* the generative-model gateway (llm.py) is an external collaborator and
  is modelled as a function parameter returning either a payload or an
  exception carried as a `String`; its retry logic is out of scope.
* file IO is abstracted: the validator receives a presence predicate for
  the required files plus the already-loaded artifact payloads, and the
  dataset stage receives the parsed content of its save file; writes are
  recorded in an explicit trace (`GenState.saves`).
-/

namespace DG

/-! Data model (models.py). -/

structure Evidence where
  input_file : String
  line_start : Int
  line_end : Int
  quote : String
  deriving DecidableEq, Repr

structure UseCase where
  id : String
  case : String
  name : String
  description : String
  evidence : List Evidence
  deriving DecidableEq, Repr

structure Policy where
  id : String
  type : String
  case : String
  statement : String
  evidence : List Evidence
  deriving DecidableEq, Repr

structure TestCase where
  id : String
  case : String
  use_case_id : String
  policy_ids : List String
  deriving DecidableEq, Repr

/-- A message dictionary inside `DatasetExample.input`; pydantic does not
validate these, so both keys may be absent. -/
structure Msg where
  role : Option String := none
  content : Option String := none
  deriving DecidableEq, Repr

/-- The `input` dictionary of a `DatasetExample`: only the two keys the
code reads are modelled. -/
structure InputData where
  messages : Option (List Msg) := none
  target_message_index : Option Int := none
  deriving DecidableEq, Repr

/-- The `metadata` dictionary of a `DatasetExample`: only the two keys
the code writes or reads are modelled. -/
structure MetaData where
  source : Option String := none
  split : Option String := none
  deriving DecidableEq, Repr

structure DatasetExample where
  id : String
  case : String
  format : String
  use_case_id : String
  test_case_id : String
  input : InputData
  expected_output : String
  evaluation_criteria : List String
  policy_ids : List String
  metadata : MetaData
  deriving DecidableEq, Repr

/-- Pydantic constraints on a `TestCase` that `DatasetExample`
construction in dataset_generator.py re-checks (id patterns and the
`case` literal); theorems about the dataset stage assume them. -/
def wfTestCase (tc : TestCase) : Bool :=
  (tc.case = ("support_bot") || tc.case = ("operator_quality"))
    && ("tc_").toList.isPrefixOf tc.id.toList && ("uc_").toList.isPrefixOf tc.use_case_id.toList

/-! Gateway payload shapes.  Every stage normalizes the gateway result
with the same two lines: `result.get(key, result) if isinstance(result,
dict) else result`, then wraps a lone dictionary in a list. -/

inductive GwPayload (α : Type) where
  | wrapped (items : List α)
  | single (item : α)
  | arr (items : List α)
  deriving DecidableEq, Repr

def GwPayload.normalize {α : Type} : GwPayload α → List α
  | .wrapped l => l
  | .single x => [x]
  | .arr l => l

/-- Numeric configuration fields of config.py; path/model/seed fields
only feed prompts and the manifest and are omitted. -/
structure Config where
  n_use_cases : Nat := 8
  n_test_cases_per_uc : Nat := 5
  n_examples_per_tc : Nat := 2
  deriving DecidableEq, Repr

/-! Extraction stage (extractor.py). -/

/-- A raw evidence dictionary returned by the gateway
(`ev.get("line_start", 1)` etc. supply the defaults). -/
structure RawEvidence where
  line_start : Option Int := none
  line_end : Option Int := none
  quote : Option String := none
  deriving DecidableEq, Repr

/-- Python substring membership `needle in hay`. -/
def strContains (hay needle : String) : Bool :=
  (List.range (hay.length + 1)).any (fun i => needle.toList.isPrefixOf (hay.toList.drop i))

/-- Python `str.strip()` (over the characters Lean considers
whitespace). -/
def pyStrip (s : String) : String :=
  ⟨((s.toList.dropWhile Char.isWhitespace).reverse.dropWhile Char.isWhitespace).reverse⟩

/-- One iteration of the `_validate_evidence` loop (extractor.py):
clamp the line range into the file, then keep the quote only if it
occurs inside the referenced lines, else replace it with the literal
text of the range. -/
def clampEvidence (raw_lines : List String) (input_file : String) (ev : RawEvidence) : Evidence :=
  let line_start0 := ev.line_start.getD 1
  let line_end0 := ev.line_end.getD line_start0
  let quote := ev.quote.getD ("")
  let line_start := max 1 (min line_start0 (raw_lines.length : Int))
  let line_end := max line_start (min line_end0 (raw_lines.length : Int))
  let actual_text := String.intercalate ("\n")
    ((raw_lines.drop (line_start - 1).toNat).take (line_end - line_start + 1).toNat)
  let final_quote :=
    if pyStrip quote ≠ ("") ∧ strContains actual_text (pyStrip quote) then pyStrip quote
    else pyStrip actual_text
  { input_file := input_file, line_start := line_start, line_end := line_end,
    quote := if final_quote ≠ ("") then final_quote else quote }

/-- Embedding of `_validate_evidence` (extractor.py). -/
def validate_evidence (evidence_list : List RawEvidence) (raw_lines : List String)
    (input_file : String) : List Evidence :=
  evidence_list.map (clampEvidence raw_lines input_file)

/-! Test-case generation stage (test_case_generator.py). -/

/-- A raw test-case record from the gateway; only `policy_ids` is read
by logic (`parameters` is stored verbatim and never read again). -/
structure RawTestCase where
  policy_ids : Option (List String) := none
  deriving DecidableEq, Repr

/-- One use case's batch: filter unknown policy ids, fall back to the
first two known ids when the filter leaves nothing, and assign
sequential `tc_N` ids starting at `counter`. -/
def tcBatch (case_type : String) (policy_ids : List String) (uc_id : String) :
    Nat → List RawTestCase → List TestCase
  | _, [] => []
  | counter, r :: rs =>
    let pids0 := (r.policy_ids.getD []).filter (fun p => decide (p ∈ policy_ids))
    let pids := if pids0 = [] then policy_ids.take 2 else pids0
    { id := ("tc_") ++ toString counter, case := case_type, use_case_id := uc_id,
      policy_ids := pids } :: tcBatch case_type policy_ids uc_id (counter + 1) rs

def tcLoop (config : Config) (gw : UseCase → GwPayload RawTestCase)
    (case_type : String) (policy_ids : List String) :
    Nat → List UseCase → List TestCase
  | _, [] => []
  | counter, uc :: rest =>
    let raw := (gw uc).normalize.take config.n_test_cases_per_uc
    let batch := tcBatch case_type policy_ids uc.id counter raw
    batch ++ tcLoop config gw case_type policy_ids (counter + batch.length) rest

/-- Embedding of `generate_test_cases` (test_case_generator.py). -/
def generate_test_cases (config : Config) (gw : UseCase → GwPayload RawTestCase)
    (use_cases : List UseCase) (policies : List Policy) : List TestCase :=
  let case_type := match use_cases with
    | [] => ("support_bot")
    | uc :: _ => uc.case
  tcLoop config gw case_type (policies.map (·.id)) 1 use_cases

/-! Dataset generation stage (dataset_generator.py). -/

/-- Embedding of `_get_format_for_case`. -/
def get_format_for_case (case_type : String) (tc_index : Nat) : String :=
  if case_type = "support_bot" then ("single_turn_qa")
  else if tc_index % 2 = 0 then ("single_utterance_correction")
  else ("dialog_last_turn_correction")

/-- Embedding of `_get_source_for_support`. -/
def get_source_for_support (ex_index : Nat) : String :=
  (["tickets", "faq_paraphrase", "corner"]).getD (ex_index % 3) ("")

/-- A raw example record from the gateway. -/
structure RawExample where
  input : Option InputData := none
  expected_output : Option String := none
  evaluation_criteria : Option (List String) := none
  metadata : Option MetaData := none
  deriving DecidableEq, Repr

def fallbackCriteria : List String :=
  ["Response is relevant", "Response follows policies", "Response is in Russian"]

/-- Per-example processing inside the `generate_dataset` loop: message
normalization, criteria padding, metadata tagging, and
`target_message_index` injection. -/
def processExample (tc : TestCase) (fmt : String) (ex_idx counter : Nat)
    (r : RawExample) : DatasetExample :=
  let input0 := r.input.getD {}
  let input1 : InputData :=
    { input0 with messages := input0.messages.map (fun l =>
        l.map (fun m => { role := some (m.role.getD ("user")),
                          content := some (m.content.getD ("")) })) }
  let ec0 := r.evaluation_criteria.getD []
  let ec := if ec0.length < 3 then ec0 ++ fallbackCriteria.take (3 - ec0.length) else ec0
  let md0 := r.metadata.getD {}
  let md1 := if tc.case = "support_bot"
    then { md0 with source := some (get_source_for_support ex_idx) } else md0
  let md : MetaData := { md1 with split := some ("test") }
  let input2 : InputData :=
    if fmt = "single_utterance_correction" then
      { input1 with target_message_index := some 0 }
    else if fmt = "dialog_last_turn_correction" ∧ input1.messages.isSome then
      { input1 with target_message_index := some (((input1.messages.getD []).length : Int) - 1) }
    else input1
  { id := ("ex_") ++ toString counter, case := tc.case, format := fmt,
    use_case_id := tc.use_case_id, test_case_id := tc.id, input := input2,
    expected_output := r.expected_output.getD (""),
    evaluation_criteria := ec, policy_ids := tc.policy_ids, metadata := md }

/-- Build one test case's batch of examples, with `ex_idx` enumerating
inside the batch and `counter` numbering examples globally. -/
def buildBatch (tc : TestCase) (fmt : String) : Nat → Nat → List RawExample → List DatasetExample
  | _, _, [] => []
  | ex_idx, counter, r :: rs =>
    processExample tc fmt ex_idx counter r :: buildBatch tc fmt (ex_idx + 1) (counter + 1) rs

/-- The save file written by `_save_partial`: the accumulated examples
in wrapped form. -/
structure SavedFile where
  examples : List DatasetExample
  deriving DecidableEq, Repr

/-- Observable state of the dataset stage: accumulated examples, the
global id counter, the trace of gateway invocations (loop index plus the
test case the prompt was built from), and the trace of files persisted
by `_save_partial`. -/
structure GenState where
  examples : List DatasetExample
  counter : Nat
  calls : List (Nat × TestCase)
  saves : List SavedFile
  deriving DecidableEq, Repr

/-- The per-test-case loop of `generate_dataset`.  The first component
of the result is the final observable state; the second is `some e` when
a gateway call failed with `e` (the stage re-raises after persisting
progress when a save path is set). -/
def genLoop (cfg : Config) (gw : Nat → TestCase → Except String (GwPayload RawExample))
    (ucIds : List String) (savePath : Bool) (completed : List String) :
    Nat → List TestCase → GenState → GenState × Option String
  | _, [], st => (st, none)
  | idx, tc :: rest, st =>
    if tc.id ∈ completed then
      genLoop cfg gw ucIds savePath completed (idx + 1) rest st
    else if tc.use_case_id ∈ ucIds then
      let fmt := get_format_for_case tc.case idx
      match gw idx tc with
      | .error e =>
        let st1 : GenState := { st with calls := st.calls ++ [(idx, tc)] }
        let st2 : GenState :=
          if savePath then { st1 with saves := st1.saves ++ [⟨st1.examples⟩] } else st1
        (st2, some e)
      | .ok payload =>
        let raws := payload.normalize.take cfg.n_examples_per_tc
        let batch := buildBatch tc fmt 0 st.counter raws
        let st1 : GenState := { st with calls := st.calls ++ [(idx, tc)],
                                        examples := st.examples ++ batch,
                                        counter := st.counter + batch.length }
        let st2 : GenState :=
          if savePath then { st1 with saves := st1.saves ++ [⟨st1.examples⟩] } else st1
        genLoop cfg gw ucIds savePath completed (idx + 1) rest st2
    else
      genLoop cfg gw ucIds savePath completed (idx + 1) rest st

/-- Embedding of `generate_dataset` (dataset_generator.py).  `existing`
is the parsed content of the save file (`none` when absent or not a
list; each record is this-or-`none` for the pydantic parse); it is only
consulted when a save path is set, exactly as in the code. -/
def generate_dataset (cfg : Config) (gw : Nat → TestCase → Except String (GwPayload RawExample))
    (use_cases : List UseCase) (savePath : Bool)
    (existing : Option (List (Option DatasetExample))) (test_cases : List TestCase) :
    GenState × Option String :=
  let raws := if savePath then existing.getD [] else []
  let all0 := raws.filterMap id
  let completed := all0.map (·.test_case_id)
  genLoop cfg gw (use_cases.map (·.id)) savePath completed 0 test_cases
    { examples := all0, counter := all0.length + 1, calls := [], saves := [] }

/-! Validator (validator.py).  Errors and warnings are embedded as
structured values; each constructor corresponds to one
`report.error(...)` or `report.warn(...)` call site and carries the data
interpolated into that message.  `report.stats` and printing are not
modelled. -/

inductive VError where
  | missingFile (fname : String)
  | manifestInvalid
  | useCasesShape
  | minUseCases (n : Nat)
  | ucParse (i : Nat)
  | policiesShape
  | minPolicies (n : Nat)
  | polParse (i : Nat)
  | minPolicyTypes (types : List String)
  | testCasesShape
  | tcParse (i : Nat)
  | tcUcNotFound (i : Nat) (uc_id : String)
  | tcPolNotFound (i : Nat) (pid : String)
  | tcNoPolicy (i : Nat)
  | ucFloor (uc_id : String) (count : Nat)
  | datasetShape
  | dsParse (i : Nat)
  | dsUcNotFound (i : Nat) (uc_id : String)
  | dsTcNotFound (i : Nat) (tc_id : String)
  | dsPolNotFound (i : Nat) (pid : String)
  | dsNoPolicy (i : Nat)
  | dsEmptyMessages (i : Nat)
  | sucRole (i : Nat)
  | dltcMinMessages (i : Nat)
  | dltcLastRole (i : Nat)
  | dltcMissingTmi (i : Nat)
  | dltcWrongTmi (i : Nat) (got expected : Int)
  | noExamples (tc_id : String)
  | missingSources (missing : List String)
  | missingFormats (missing : List String)
  deriving DecidableEq, Repr

inductive VWarn where
  | bareArray (artifact : String)
  | evidenceOutOfBounds (artifact : String) (i : Nat) (ls le : Int) (total : Nat)
  | evidenceQuoteMismatch (artifact : String) (i : Nat) (ls le : Int)
  | sucMsgCount (i : Nat) (n : Nat)
  | sucMissingTmi (i : Nat)
  | sucWrongTmi (i : Nat)
  | supportMissingSource (i : Nat)
  deriving DecidableEq, Repr

structure Report where
  errors : List VError
  warnings : List VWarn
  deriving DecidableEq, Repr

/-- Wrapper-shape of a loaded artifact: a dictionary holding the
expected key, a bare array (accepted with a warning), or anything else
(an error; treated as an empty list). -/
inductive Wrapped (α : Type) where
  | wrapped (items : List α)
  | bare (items : List α)
  | invalid
  deriving DecidableEq, Repr

def Wrapped.items {α : Type} : Wrapped α → List α
  | .wrapped l => l
  | .bare l => l
  | .invalid => []

def Wrapped.shapeErrors {α : Type} (e : VError) : Wrapped α → List VError
  | .invalid => [e]
  | _ => []

def Wrapped.shapeWarns {α : Type} (w : VWarn) : Wrapped α → List VWarn
  | .bare _ => [w]
  | _ => []

/-- A raw record of dataset.json: the `case` key read directly from the
dictionary (used by the coverage check even on unparsable records) plus
the pydantic parse oracle. -/
structure DsRecord where
  rawCase : Option String := none
  parsed : Option DatasetExample := none
  deriving DecidableEq, Repr

/-- Insertion-ordered de-duplication; models building a Python `set` by
repeated `add` (only membership and size of these sets are consumed). -/
def dedupIns (l : List String) : List String :=
  l.foldl (fun acc x => if x ∈ acc then acc else acc ++ [x]) []

/-- Counting dictionary update `d[k] = d.get(k, 0) + 1`. -/
def bump : List (String × Nat) → String → List (String × Nat)
  | [], k => [(k, 1)]
  | (k0, v) :: rest, k =>
    if k0 = k then (k0, v + 1) :: rest else (k0, v) :: bump rest k

def lookupCount : List (String × Nat) → String → Option Nat
  | [], _ => none
  | (k0, v) :: rest, k => if k0 = k then some v else lookupCount rest k

/-- Embedding of `_validate_evidence_quote` (validator.py). -/
def evidenceQuoteWarns (artifact : String) (i : Nat) (input_lines : Option (List String))
    (ev : Evidence) : List VWarn :=
  match input_lines with
  | none => []
  | some lines =>
    if ev.line_start < 1 ∨ ev.line_end < ev.line_start ∨ ev.line_end > (lines.length : Int) then
      [.evidenceOutOfBounds artifact i ev.line_start ev.line_end lines.length]
    else
      let actual := String.intercalate ("\n")
        ((lines.drop (ev.line_start - 1).toNat).take (ev.line_end - ev.line_start + 1).toNat)
      if pyStrip ev.quote ≠ ("") ∧ ¬ strContains (pyStrip actual) (pyStrip ev.quote) then
        [.evidenceQuoteMismatch artifact i ev.line_start ev.line_end]
      else []

def ucRecErrors : Nat → List (Option UseCase) → List VError
  | _, [] => []
  | i, none :: rest => VError.ucParse i :: ucRecErrors (i + 1) rest
  | i, some _ :: rest => ucRecErrors (i + 1) rest

def ucRecWarns (input_lines : Option (List String)) : Nat → List (Option UseCase) → List VWarn
  | _, [] => []
  | i, none :: rest => ucRecWarns input_lines (i + 1) rest
  | i, some uc :: rest =>
    (uc.evidence.map (evidenceQuoteWarns ("use_cases") i input_lines)).flatten
      ++ ucRecWarns input_lines (i + 1) rest

def polRecErrors : Nat → List (Option Policy) → List VError
  | _, [] => []
  | i, none :: rest => VError.polParse i :: polRecErrors (i + 1) rest
  | i, some _ :: rest => polRecErrors (i + 1) rest

def polRecWarns (input_lines : Option (List String)) : Nat → List (Option Policy) → List VWarn
  | _, [] => []
  | i, none :: rest => polRecWarns input_lines (i + 1) rest
  | i, some pol :: rest =>
    (pol.evidence.map (evidenceQuoteWarns ("policies") i input_lines)).flatten
      ++ polRecWarns input_lines (i + 1) rest

def tcRecErrors (ucIds polIds : List String) : Nat → List (Option TestCase) → List VError
  | _, [] => []
  | i, none :: rest => VError.tcParse i :: tcRecErrors ucIds polIds (i + 1) rest
  | i, some tc :: rest =>
    (if tc.use_case_id ∈ ucIds then [] else [VError.tcUcNotFound i tc.use_case_id])
      ++ tc.policy_ids.filterMap (fun pid =>
          if pid ∈ polIds then none else some (VError.tcPolNotFound i pid))
      ++ (if tc.policy_ids = [] then [VError.tcNoPolicy i] else [])
      ++ tcRecErrors ucIds polIds (i + 1) rest

/-- The counting dictionary `tc_per_uc`, keyed by `use_case_id` of every
schema-valid test case (including ones whose use case does not exist). -/
def tcCounts (l : List (Option TestCase)) : List (String × Nat) :=
  ((l.filterMap id).map (·.use_case_id)).foldl bump []

/-- The per-use-case floor loop `for uc_id, count in tc_per_uc.items()`. -/
def floorErrors (m : List (String × Nat)) : List VError :=
  m.filterMap (fun p => if p.2 < 3 then some (VError.ucFloor p.1 p.2) else none)

/-- The `messages and messages[0].get("role") != "operator"` error of
the `single_utterance_correction` branch. -/
def sucRoleErrors (i : Nat) : List Msg → List VError
  | [] => []
  | m :: _ => if m.role ≠ some ("operator") then [VError.sucRole i] else []

/-- The missing / wrong `target_message_index` warnings of the
`single_utterance_correction` branch. -/
def sucTmiWarns (i : Nat) : Option Int → List VWarn
  | none => [VWarn.sucMissingTmi i]
  | some t => if t ≠ 0 then [VWarn.sucWrongTmi i] else []

/-- The `messages and messages[-1].get("role") != "operator"` error of
the `dialog_last_turn_correction` branch (applied to `getLast?`). -/
def dltcLastRoleErrors (i : Nat) : Option Msg → List VError
  | none => []
  | some m => if m.role ≠ some ("operator") then [VError.dltcLastRole i] else []

/-- The missing / wrong `target_message_index` errors of the
`dialog_last_turn_correction` branch (`n` is the message count). -/
def dltcTmiErrors (i : Nat) (n : Nat) : Option Int → List VError
  | none => [VError.dltcMissingTmi i]
  | some t =>
    if t ≠ (n : Int) - 1 then [VError.dltcWrongTmi i t ((n : Int) - 1)] else []

/-- Format-specific shape checks of one dataset example (the
`single_utterance_correction` / `dialog_last_turn_correction` branches);
first component errors, second warnings. -/
def formatChecks (i : Nat) (ex : DatasetExample) : List VError × List VWarn :=
  let msgs := ex.input.messages.getD []
  let tmi := ex.input.target_message_index
  if ex.format = "single_utterance_correction" then
    (sucRoleErrors i msgs,
     (if msgs.length ≠ 1 then [VWarn.sucMsgCount i msgs.length] else [])
       ++ sucTmiWarns i tmi)
  else if ex.format = "dialog_last_turn_correction" then
    ((if msgs.length < 2 then [VError.dltcMinMessages i] else [])
       ++ dltcLastRoleErrors i msgs.getLast?
       ++ dltcTmiErrors i msgs.length tmi,
     [])
  else ([], [])

/-- Python truthiness of `metadata.get("source")`. -/
def truthy : Option String → Bool
  | none => false
  | some s => s ≠ ("")

/-- All errors the validator records for one parsed dataset example:
referential integrity, the empty-messages check, then the
format-specific errors. -/
def exampleErrors (ucIds tcIds polIds : List String) (i : Nat) (ex : DatasetExample) :
    List VError :=
  (if ex.use_case_id ∈ ucIds then [] else [VError.dsUcNotFound i ex.use_case_id])
    ++ (if ex.test_case_id ∈ tcIds then [] else [VError.dsTcNotFound i ex.test_case_id])
    ++ ex.policy_ids.filterMap (fun pid =>
        if pid ∈ polIds then none else some (VError.dsPolNotFound i pid))
    ++ (if ex.policy_ids = [] then [VError.dsNoPolicy i] else [])
    ++ (if ex.input.messages.getD [] = [] then [VError.dsEmptyMessages i] else [])
    ++ (formatChecks i ex).1

def exampleWarns (i : Nat) (ex : DatasetExample) : List VWarn :=
  (formatChecks i ex).2
    ++ (if ex.case = "support_bot" then
          if truthy ex.metadata.source then [] else [VWarn.supportMissingSource i]
        else [])

def dsRecErrors (ucIds tcIds polIds : List String) : Nat → List DsRecord → List VError
  | _, [] => []
  | i, r :: rest =>
    (match r.parsed with
     | none => [VError.dsParse i]
     | some ex => exampleErrors ucIds tcIds polIds i ex)
      ++ dsRecErrors ucIds tcIds polIds (i + 1) rest

def dsRecWarns : Nat → List DsRecord → List VWarn
  | _, [] => []
  | i, r :: rest =>
    (match r.parsed with
     | none => []
     | some ex => exampleWarns i ex)
      ++ dsRecWarns (i + 1) rest

/-- Id set collected from schema-valid use cases. -/
def ucIdsOf (l : List (Option UseCase)) : List String :=
  dedupIns ((l.filterMap id).map (·.id))

def polIdsOf (l : List (Option Policy)) : List String :=
  dedupIns ((l.filterMap id).map (·.id))

def polTypesOf (l : List (Option Policy)) : List String :=
  dedupIns ((l.filterMap id).map (·.type))

def tcIdsOf (l : List (Option TestCase)) : List String :=
  dedupIns ((l.filterMap id).map (·.id))

/-- Keys of `ex_per_tc` (only membership is consumed). -/
def exTcIdsOf (l : List DsRecord) : List String :=
  l.filterMap (fun r => r.parsed.map (·.test_case_id))

def formatsSeenOf (l : List DsRecord) : List String :=
  l.filterMap (fun r => r.parsed.map (·.format))

/-- Sources recorded from `metadata.get("source")` when truthy. -/
def sourcesSeenOf (l : List DsRecord) : List String :=
  l.filterMap (fun r => r.parsed.bind (fun ex =>
    if truthy ex.metadata.source then ex.metadata.source else none))

/-- The coverage loop `for tc_id in test_case_ids`. -/
def noExamplesErrors (tcIds exTcIds : List String) : List VError :=
  tcIds.filterMap (fun tid =>
    if tid ∈ exTcIds then none else some (VError.noExamples tid))

/-- Case-wide coverage check: the case type is taken from the raw first
record of the examples list. -/
def covErrors (dsList : List DsRecord) (sourcesSeen formatsSeen : List String) :
    List VError :=
  match dsList.head? with
  | none => []
  | some r =>
    match r.rawCase with
    | some ct =>
      if ct = "support_bot" then
        let missing := (["tickets", "faq_paraphrase", "corner"]).filter
          (fun s => decide (s ∉ sourcesSeen))
        if missing = [] then [] else [VError.missingSources missing]
      else if ct = "operator_quality" then
        let missing := (["single_utterance_correction", "dialog_last_turn_correction"]).filter
          (fun f => decide (f ∉ formatsSeen))
        if missing = [] then [] else [VError.missingFormats missing]
      else []
    | none => []

/-- Content checks of `validate`, run after all required files exist.
`manifest_bad` abstracts a truthy run_manifest.json failing the
`RunManifest` schema; `input_lines` abstracts the resolved input
document (from the argument or the manifest), `none` when unavailable. -/
def validateContent (manifest_bad : Bool) (uc_raw : Wrapped (Option UseCase))
    (pol_raw : Wrapped (Option Policy)) (tc_raw : Wrapped (Option TestCase))
    (ds_raw : Wrapped DsRecord) (input_lines : Option (List String)) : Report :=
  let uc_list := uc_raw.items
  let pol_list := pol_raw.items
  let tc_list := tc_raw.items
  let ds_list := ds_raw.items
  let use_case_ids := ucIdsOf uc_list
  let policy_ids := polIdsOf pol_list
  let test_case_ids := tcIdsOf tc_list
  { errors :=
      (if manifest_bad then [VError.manifestInvalid] else [])
        ++ uc_raw.shapeErrors VError.useCasesShape
        ++ (if uc_list.length < 5 then [VError.minUseCases uc_list.length] else [])
        ++ ucRecErrors 0 uc_list
        ++ pol_raw.shapeErrors VError.policiesShape
        ++ (if pol_list.length < 5 then [VError.minPolicies pol_list.length] else [])
        ++ polRecErrors 0 pol_list
        ++ (if (polTypesOf pol_list).length < 2 then
              [VError.minPolicyTypes (polTypesOf pol_list)] else [])
        ++ tc_raw.shapeErrors VError.testCasesShape
        ++ tcRecErrors use_case_ids policy_ids 0 tc_list
        ++ floorErrors (tcCounts tc_list)
        ++ ds_raw.shapeErrors VError.datasetShape
        ++ dsRecErrors use_case_ids test_case_ids policy_ids 0 ds_list
        ++ noExamplesErrors test_case_ids (exTcIdsOf ds_list)
        ++ covErrors ds_list (sourcesSeenOf ds_list) (formatsSeenOf ds_list),
    warnings :=
      uc_raw.shapeWarns (VWarn.bareArray ("use_cases"))
        ++ ucRecWarns input_lines 0 uc_list
        ++ pol_raw.shapeWarns (VWarn.bareArray ("policies"))
        ++ polRecWarns input_lines 0 pol_list
        ++ tc_raw.shapeWarns (VWarn.bareArray ("test_cases"))
        ++ ds_raw.shapeWarns (VWarn.bareArray ("dataset"))
        ++ dsRecWarns 0 ds_list }

def requiredFiles : List String :=
  ["run_manifest.json", "use_cases.json", "policies.json", "test_cases.json", "dataset.json"]

/-- Embedding of `validate` (validator.py): existence check over the
five required files short-circuits everything else. -/
def validate (present : String → Bool) (manifest_bad : Bool)
    (uc_raw : Wrapped (Option UseCase)) (pol_raw : Wrapped (Option Policy))
    (tc_raw : Wrapped (Option TestCase)) (ds_raw : Wrapped DsRecord)
    (input_lines : Option (List String)) : Report :=
  let missing := requiredFiles.filter (fun f => !present f)
  if missing.isEmpty then
    validateContent manifest_bad uc_raw pol_raw tc_raw ds_raw input_lines
  else
    { errors := missing.map VError.missingFile, warnings := [] }

/-- Number of schema-valid test-case records of the artifact whose
`use_case_id` equals `k`. -/
def countValidTC (l : List (Option TestCase)) (k : String) : Nat :=
  (((l.filterMap id).map (·.use_case_id)).filter (fun u => decide (u = k))).length

/-- Coverage-check error discriminator (used to state that an error is
one of the two case-wide coverage errors). -/
def VError.isCoverage : VError → Bool
  | .missingSources _ => true
  | .missingFormats _ => true
  | _ => false

/-! Concrete artifact fixtures used by counterexamples. -/

def evC1 : Evidence := ⟨"in.md", 1, 1, "q"⟩

/-- Five schema-valid use cases `uc_1` .. `uc_5`. -/
def ucsC1 : List (Option UseCase) :=
  (List.range 5).map (fun i => some ⟨("uc_") ++ toString (i + 1), "support_bot", "n", "d", [evC1]⟩)

/-- Five schema-valid policies with five distinct types. -/
def polsC1 : List (Option Policy) :=
  [some ⟨"pol_1", "must", "support_bot", "s", [evC1]⟩,
   some ⟨"pol_2", "must_not", "support_bot", "s", [evC1]⟩,
   some ⟨"pol_3", "style", "support_bot", "s", [evC1]⟩,
   some ⟨"pol_4", "format", "support_bot", "s", [evC1]⟩,
   some ⟨"pol_5", "escalate", "support_bot", "s", [evC1]⟩]

/-- Twelve schema-valid test cases: three each for `uc_1` .. `uc_4` and
none for `uc_5`. -/
def tcsC1 : List (Option TestCase) :=
  (List.range 12).map (fun i =>
    some ⟨("tc_") ++ toString (i + 1), "support_bot", ("uc_") ++ toString (i / 3 + 1), ["pol_1"]⟩)

/-- One schema-valid `single_turn_qa` example per test case, rotating
the three required source labels. -/
def dsC1 : List DsRecord :=
  (List.range 12).map (fun i =>
    ⟨some ("support_bot"),
     some ⟨("ex_") ++ toString (i + 1), "support_bot", "single_turn_qa",
           ("uc_") ++ toString (i / 3 + 1), ("tc_") ++ toString (i + 1),
           ⟨some [⟨some ("user"), some ("hi")⟩], none⟩, "",
           ["a", "b", "c"], ["pol_1"], ⟨some (get_source_for_support i), some ("test")⟩⟩⟩)

/-- A `single_utterance_correction` example whose only shape deviation
is a first message of role "user". -/
def exC2 : DatasetExample :=
  ⟨"ex_1", "support_bot", "single_utterance_correction", "uc_1", "tc_1",
   ⟨some [⟨some ("user"), some ("hi")⟩], some 0⟩, "", ["a", "b", "c"], ["pol_1"], ⟨none, none⟩⟩

def ucC5 : UseCase := ⟨"uc_1", "support_bot", "n", "d", [⟨"f", 1, 1, "q"⟩]⟩

def polsC5 : List Policy :=
  [⟨"pol_1", "must", "support_bot", "s", [⟨"f", 1, 1, "q"⟩]⟩,
   ⟨"pol_2", "style", "support_bot", "s", [⟨"f", 1, 1, "q"⟩]⟩,
   ⟨"pol_3", "must", "support_bot", "s", [⟨"f", 1, 1, "q"⟩]⟩]

def ucC6 : UseCase := ⟨"uc_1", "support_bot", "n", "d", [⟨"f", 1, 1, "q"⟩]⟩

/-- A previously persisted example for `tc_1`. -/
def exC6 : DatasetExample :=
  ⟨"ex_1", "support_bot", "single_turn_qa", "uc_1", "tc_1", ⟨none, none⟩, "",
   ["a", "b", "c"], ["pol_1"], ⟨none, none⟩⟩

def tcC6a : TestCase := ⟨"tc_1", "support_bot", "uc_1", ["pol_1"]⟩

def tcC6b : TestCase := ⟨"tc_2", "support_bot", "uc_1", ["pol_1"]⟩

/-- A gateway that returns one empty raw example for every request. -/
def gwC6 : Nat → TestCase → GwPayload RawExample := fun _ _ => .wrapped [{}]

def ucC7 : UseCase := ⟨"uc_1", "support_bot", "n", "d", [⟨"f", 1, 1, "q"⟩]⟩

def tcC7 : TestCase := ⟨"tc_1", "support_bot", "uc_1", ["pol_1"]⟩

/-- A gateway that always fails. -/
def gwC7 : Nat → TestCase → Except String (GwPayload RawExample) :=
  fun _ _ => Except.error ("boom")

def ucC9 : UseCase := ⟨"uc_1", "support_bot", "n", "d", [⟨"f", 1, 1, "q"⟩]⟩

/-- A test case referencing a use case id that does not exist. -/
def tcC9 : TestCase := ⟨"tc_9", "support_bot", "uc_404", ["pol_1"]⟩

def gwC9 : Nat → TestCase → Except String (GwPayload RawExample) :=
  fun _ _ => Except.ok (GwPayload.arr [])

/-! Theorems. -/

lemma clampEvidence_line_start (raw_lines : List String) (input_file : String)
    (ev : RawEvidence) :
    (clampEvidence raw_lines input_file ev).line_start
      = max 1 (min (ev.line_start.getD 1) (raw_lines.length : Int)) := rfl

lemma clampEvidence_line_end (raw_lines : List String) (input_file : String)
    (ev : RawEvidence) :
    (clampEvidence raw_lines input_file ev).line_end
      = max (max 1 (min (ev.line_start.getD 1) (raw_lines.length : Int)))
          (min (ev.line_end.getD (ev.line_start.getD 1)) (raw_lines.length : Int)) := rfl

/-- C4 (amended: the input document must have at least one line): every
evidence record produced by the extraction stage's evidence validation
has `1 ≤ line_start ≤ line_end ≤` number of lines of the document. -/
theorem evidence_line_bounds (evidence_list : List RawEvidence) (raw_lines : List String)
    (input_file : String) (h : raw_lines ≠ []) :
    ∀ e ∈ validate_evidence evidence_list raw_lines input_file,
      1 ≤ e.line_start ∧ e.line_start ≤ e.line_end ∧ e.line_end ≤ (raw_lines.length : Int) := by
  intro e he
  have h0 : 0 < raw_lines.length := List.length_pos.mpr h
  have hn : 1 ≤ (raw_lines.length : Int) := by exact_mod_cast h0
  rw [validate_evidence, List.mem_map] at he
  obtain ⟨ev, -, rfl⟩ := he
  rw [clampEvidence_line_start, clampEvidence_line_end]
  exact ⟨le_max_left _ _, le_max_left _ _,
    max_le (max_le hn (min_le_right _ _)) (min_le_right _ _)⟩

/-- Witness for C4: on the one-line document the produced record stays
in bounds. -/
theorem evidence_line_bounds_witness :
    ([("alpha")] : List String) ≠ [] ∧
    (1 ≤ (⟨"doc.md", 1, 1, "alpha"⟩ : Evidence).line_start ∧
     (⟨"doc.md", 1, 1, "alpha"⟩ : Evidence).line_start
        ≤ (⟨"doc.md", 1, 1, "alpha"⟩ : Evidence).line_end ∧
     (⟨"doc.md", 1, 1, "alpha"⟩ : Evidence).line_end
        ≤ (([("alpha")] : List String).length : Int)) :=
  ⟨by decide,
   evidence_line_bounds [⟨some 5, some 7, some ("x")⟩] [("alpha")] ("doc.md") (by decide)
     ⟨"doc.md", 1, 1, "alpha"⟩ (by decide)⟩

/-- Counterexample for C4: on an empty (zero-line) document the clamp
still yields `line_start = line_end = 1`, so `line_end` exceeds the
total number of lines. -/
theorem evidence_line_bounds_cex :
    validate_evidence [⟨some 5, some 7, some ("x")⟩] [] ("doc.md") = [⟨"doc.md", 1, 1, "x"⟩] ∧
    ¬ ((⟨"doc.md", 1, 1, "x"⟩ : Evidence).line_end ≤ (([] : List String).length : Int)) := by
  decide

/-- C8: the output format is a deterministic function of the case type
and the ordinal position: `support_bot` always maps to the QA format,
`operator_quality` alternates by parity. -/
theorem format_choice (i : Nat) :
    get_format_for_case ("support_bot") i = ("single_turn_qa") ∧
    get_format_for_case ("operator_quality") i =
      (if i % 2 = 0 then ("single_utterance_correction")
       else ("dialog_last_turn_correction")) := by
  constructor
  · rfl
  · simp [get_format_for_case]

lemma take_two_ne_nil {l : List String} (h : l ≠ []) : l.take 2 ≠ [] := by
  cases l with
  | nil => exact absurd rfl h
  | cons a t => simp

lemma tcBatch_policy (case_type : String) (policy_ids : List String) (uc_id : String)
    (hp : policy_ids ≠ []) :
    ∀ (rs : List RawTestCase) (counter : Nat) (tc : TestCase),
      tc ∈ tcBatch case_type policy_ids uc_id counter rs →
        tc.policy_ids ≠ [] ∧ ∀ pid ∈ tc.policy_ids, pid ∈ policy_ids := by
  intro rs
  induction rs with
  | nil => intro counter tc h; simp [tcBatch] at h
  | cons r rest ih =>
    intro counter tc htc
    simp only [tcBatch, List.mem_cons] at htc
    rcases htc with rfl | h
    · dsimp only
      constructor
      · split_ifs with h0
        · exact take_two_ne_nil hp
        · exact h0
      · intro pid hpid
        split_ifs at hpid with h0
        · exact List.take_subset _ _ hpid
        · exact of_decide_eq_true (List.mem_filter.mp hpid).2
    · exact ih (counter + 1) tc h

lemma tcLoop_policy (config : Config) (gw : UseCase → GwPayload RawTestCase)
    (case_type : String) (policy_ids : List String) (hp : policy_ids ≠ []) :
    ∀ (ucs : List UseCase) (counter : Nat) (tc : TestCase),
      tc ∈ tcLoop config gw case_type policy_ids counter ucs →
        tc.policy_ids ≠ [] ∧ ∀ pid ∈ tc.policy_ids, pid ∈ policy_ids := by
  intro ucs
  induction ucs with
  | nil => intro counter tc h; simp [tcLoop] at h
  | cons uc rest ih =>
    intro counter tc htc
    simp only [tcLoop, List.mem_append] at htc
    rcases htc with h | h
    · exact tcBatch_policy case_type policy_ids uc.id hp _ _ tc h
    · exact ih _ tc h

/-- C5 (amended: provided the known policy set is non-empty): every
stored test case keeps only known policy ids, and the first-two-known
fallback makes its `policy_ids` non-empty. -/
theorem tc_policy_fallback (config : Config) (gw : UseCase → GwPayload RawTestCase)
    (use_cases : List UseCase) (policies : List Policy) (h : policies ≠ []) :
    ∀ tc ∈ generate_test_cases config gw use_cases policies,
      tc.policy_ids ≠ [] ∧ ∀ pid ∈ tc.policy_ids, pid ∈ policies.map (·.id) := by
  intro tc htc
  have hp : policies.map (·.id) ≠ [] := by
    intro heq
    exact h (List.map_eq_nil_iff.mp heq)
  simp only [generate_test_cases] at htc
  exact tcLoop_policy config gw _ _ hp use_cases 1 tc htc

/-- Witness for C5: the spec's concrete scenario — a gateway record
with empty `policy_ids` against known policies `pol_1, pol_2, pol_3` is
stored with `policy_ids = [pol_1, pol_2]`. -/
theorem tc_policy_fallback_witness :
    polsC5 ≠ [] ∧
    generate_test_cases ⟨8, 5, 2⟩ (fun _ => .wrapped [⟨some []⟩]) [ucC5] polsC5
      = [⟨"tc_1", "support_bot", "uc_1", ["pol_1", "pol_2"]⟩] ∧
    ((⟨"tc_1", "support_bot", "uc_1", ["pol_1", "pol_2"]⟩ : TestCase).policy_ids ≠ [] ∧
     ∀ pid ∈ (⟨"tc_1", "support_bot", "uc_1", ["pol_1", "pol_2"]⟩ : TestCase).policy_ids,
       pid ∈ polsC5.map (·.id)) :=
  ⟨by decide, by decide,
   tc_policy_fallback ⟨8, 5, 2⟩ (fun _ => .wrapped [⟨some []⟩]) [ucC5] polsC5 (by decide)
     ⟨"tc_1", "support_bot", "uc_1", ["pol_1", "pol_2"]⟩ (by decide)⟩

/-- Counterexample for C5: with an empty known policy set the fallback
`policy_ids[:2]` is itself empty, so a stored test case ends up with an
empty `policy_ids` list. -/
theorem tc_policy_fallback_cex :
    (generate_test_cases ⟨8, 5, 2⟩ (fun _ => .wrapped [⟨some []⟩]) [ucC5] []).map (·.policy_ids)
      = [[]] := by
  decide

/-- C2 (amended): within the `single_utterance_correction` shape checks,
a wrong message count and a missing or wrong `target_message_index` add
only warnings, but a non-empty message list whose first message's role
is not "operator" adds an error — the only shape error of this format. -/
theorem suc_shape_checks (i : Nat) (ex : DatasetExample)
    (h : ex.format = "single_utterance_correction") :
    (formatChecks i ex).1 = (match ex.input.messages.getD [] with
      | [] => []
      | m :: _ => if m.role ≠ some ("operator") then [VError.sucRole i] else []) ∧
    (formatChecks i ex).2 =
      (if (ex.input.messages.getD []).length ≠ 1 then
        [VWarn.sucMsgCount i (ex.input.messages.getD []).length] else [])
      ++ (match ex.input.target_message_index with
          | none => [VWarn.sucMissingTmi i]
          | some t => if t ≠ 0 then [VWarn.sucWrongTmi i] else []) := by
  rw [formatChecks, h]
  exact ⟨rfl, rfl⟩

/-- Witness for C2's amended statement on a concrete example. -/
theorem suc_shape_checks_witness :
    exC2.format = ("single_utterance_correction") ∧
    ((formatChecks 0 exC2).1 = (match exC2.input.messages.getD [] with
      | [] => []
      | m :: _ => if m.role ≠ some ("operator") then [VError.sucRole 0] else []) ∧
    (formatChecks 0 exC2).2 =
      (if (exC2.input.messages.getD []).length ≠ 1 then
        [VWarn.sucMsgCount 0 (exC2.input.messages.getD []).length] else [])
      ++ (match exC2.input.target_message_index with
          | none => [VWarn.sucMissingTmi 0]
          | some t => if t ≠ 0 then [VWarn.sucWrongTmi 0] else [])) :=
  ⟨by decide, suc_shape_checks 0 exC2 (by decide)⟩

/-- Counterexample for C2: a `single_utterance_correction` example whose
only shape deviation is a first message of role "user" (count is 1 and
`target_message_index` is 0) makes the validator record an error, not a
warning. -/
theorem suc_shape_checks_cex :
    exC2.format = ("single_utterance_correction") ∧
    (exC2.input.messages.getD []).length = 1 ∧
    exC2.input.target_message_index = some 0 ∧
    (exC2.input.messages.getD []).head?.map (·.role) = some (some ("user")) ∧
    VError.sucRole 0 ∈ (validateContent false (.wrapped []) (.wrapped []) (.wrapped [])
        (.wrapped [⟨some ("support_bot"), some exC2⟩]) none).errors := by
  decide

/-- C3 (amended: there are five required files, `run_manifest.json`
included): the validator proceeds to the content checks exactly when all
five are present, and otherwise reports exactly one missing-file error
per missing file and nothing else. -/
theorem validator_file_gate (present : String → Bool) (manifest_bad : Bool)
    (uc_raw : Wrapped (Option UseCase)) (pol_raw : Wrapped (Option Policy))
    (tc_raw : Wrapped (Option TestCase)) (ds_raw : Wrapped DsRecord)
    (input_lines : Option (List String)) :
    ((∀ f ∈ requiredFiles, present f = true) →
      validate present manifest_bad uc_raw pol_raw tc_raw ds_raw input_lines
        = validateContent manifest_bad uc_raw pol_raw tc_raw ds_raw input_lines) ∧
    ((∃ f ∈ requiredFiles, present f = false) →
      validate present manifest_bad uc_raw pol_raw tc_raw ds_raw input_lines
        = ⟨(requiredFiles.filter (fun f => !present f)).map VError.missingFile, []⟩) := by
  constructor
  · intro hall
    have h0 : requiredFiles.filter (fun f => !present f) = [] := by
      rw [List.filter_eq_nil_iff]
      intro f hf
      simp [hall f hf]
    rw [validate, h0]
    rfl
  · rintro ⟨f, hf, hpf⟩
    have h0 : f ∈ requiredFiles.filter (fun f => !present f) := by
      rw [List.mem_filter]
      exact ⟨hf, by simp [hpf]⟩
    have h1 : (requiredFiles.filter (fun f => !present f)).isEmpty = false := by
      rcases hmiss : requiredFiles.filter (fun f => !present f) with _ | ⟨a, t⟩
      · rw [hmiss] at h0
        cases h0
      · rfl
    rw [validate]
    simp only [h1]
    rfl

/-- Witness for C3's amended statement: with every file present the
validator runs the content checks. -/
theorem validator_file_gate_witness :
    validate (fun _ => true) false .invalid .invalid .invalid .invalid none
      = validateContent false .invalid .invalid .invalid .invalid none :=
  (validator_file_gate (fun _ => true) false .invalid .invalid .invalid .invalid none).1
    (by decide)

/-- Counterexample for C3: with all four data artifacts present but
`run_manifest.json` missing, the validator still aborts with the single
missing-file error and never reaches the content checks (which would
have produced shape errors here). -/
theorem validator_file_gate_cex :
    validate (fun f => decide (f ≠ ("run_manifest.json"))) false
        .invalid .invalid .invalid .invalid none
      = ⟨[VError.missingFile ("run_manifest.json")], []⟩ ∧
    (fun f => decide (f ≠ ("run_manifest.json"))) ("use_cases.json") = true ∧
    (fun f => decide (f ≠ ("run_manifest.json"))) ("policies.json") = true ∧
    (fun f => decide (f ≠ ("run_manifest.json"))) ("test_cases.json") = true ∧
    (fun f => decide (f ≠ ("run_manifest.json"))) ("dataset.json") = true ∧
    (validateContent false .invalid .invalid .invalid .invalid none).errors ≠ [] := by
  decide

lemma buildBatch_fields (tc : TestCase) (fmt : String) :
    ∀ (rs : List RawExample) (ex_idx counter : Nat) (e : DatasetExample),
      e ∈ buildBatch tc fmt ex_idx counter rs →
        e.test_case_id = tc.id ∧ e.use_case_id = tc.use_case_id := by
  intro rs
  induction rs with
  | nil => intro _ _ e h; simp [buildBatch] at h
  | cons r rest ih =>
    intro ex_idx counter e he
    simp only [buildBatch, List.mem_cons] at he
    rcases he with rfl | h
    · exact ⟨rfl, rfl⟩
    · exact ih _ _ e h

lemma genLoop_cons_skip (cfg : Config) (gw : Nat → TestCase → Except String (GwPayload RawExample))
    (ucIds : List String) (sp : Bool) (completed : List String) (idx : Nat)
    (tc : TestCase) (rest : List TestCase) (st : GenState) (h1 : tc.id ∈ completed) :
    genLoop cfg gw ucIds sp completed idx (tc :: rest) st
      = genLoop cfg gw ucIds sp completed (idx + 1) rest st := by
  simp [genLoop, h1]

lemma genLoop_cons_unknown (cfg : Config) (gw : Nat → TestCase → Except String (GwPayload RawExample))
    (ucIds : List String) (sp : Bool) (completed : List String) (idx : Nat)
    (tc : TestCase) (rest : List TestCase) (st : GenState)
    (h1 : tc.id ∉ completed) (h2 : tc.use_case_id ∉ ucIds) :
    genLoop cfg gw ucIds sp completed idx (tc :: rest) st
      = genLoop cfg gw ucIds sp completed (idx + 1) rest st := by
  simp [genLoop, h1, h2]

lemma genLoop_cons_err (cfg : Config) (gw : Nat → TestCase → Except String (GwPayload RawExample))
    (ucIds : List String) (sp : Bool) (completed : List String) (idx : Nat)
    (tc : TestCase) (rest : List TestCase) (st : GenState) (e : String)
    (h1 : tc.id ∉ completed) (h2 : tc.use_case_id ∈ ucIds)
    (hgw : gw idx tc = Except.error e) :
    genLoop cfg gw ucIds sp completed idx (tc :: rest) st
      = ({ st with calls := st.calls ++ [(idx, tc)],
                   saves := if sp then st.saves ++ [⟨st.examples⟩] else st.saves }, some e) := by
  simp only [genLoop, h1, h2, hgw, if_neg, if_pos, ite_false, ite_true]
  cases sp <;> rfl

lemma genLoop_cons_ok (cfg : Config) (gw : Nat → TestCase → Except String (GwPayload RawExample))
    (ucIds : List String) (sp : Bool) (completed : List String) (idx : Nat)
    (tc : TestCase) (rest : List TestCase) (st : GenState) (payload : GwPayload RawExample)
    (h1 : tc.id ∉ completed) (h2 : tc.use_case_id ∈ ucIds)
    (hgw : gw idx tc = Except.ok payload) :
    genLoop cfg gw ucIds sp completed idx (tc :: rest) st
      = genLoop cfg gw ucIds sp completed (idx + 1) rest
          { st with
            calls := st.calls ++ [(idx, tc)],
            examples := st.examples ++ buildBatch tc (get_format_for_case tc.case idx) 0
              st.counter (payload.normalize.take cfg.n_examples_per_tc),
            counter := st.counter + (buildBatch tc (get_format_for_case tc.case idx) 0
              st.counter (payload.normalize.take cfg.n_examples_per_tc)).length,
            saves := if sp then
                st.saves ++ [⟨st.examples ++ buildBatch tc (get_format_for_case tc.case idx) 0
                  st.counter (payload.normalize.take cfg.n_examples_per_tc)⟩]
              else st.saves } := by
  simp only [genLoop, h1, h2, hgw, if_neg, if_pos, ite_false, ite_true]
  cases sp <;> rfl

/-- Every call and every appended example of the loop comes from a test
case of the remaining list that was neither already completed nor
referencing an unknown use case. -/
lemma genLoop_spec (cfg : Config) (gw : Nat → TestCase → Except String (GwPayload RawExample))
    (ucIds : List String) (sp : Bool) (completed : List String) :
    ∀ (l : List TestCase) (idx : Nat) (st : GenState),
      ∃ (cs : List (Nat × TestCase)) (es : List DatasetExample),
        (genLoop cfg gw ucIds sp completed idx l st).1.calls = st.calls ++ cs ∧
        (genLoop cfg gw ucIds sp completed idx l st).1.examples = st.examples ++ es ∧
        (∀ c ∈ cs, c.2 ∈ l ∧ c.2.id ∉ completed ∧ c.2.use_case_id ∈ ucIds) ∧
        (∀ e ∈ es, ∃ t, t ∈ l ∧ e.test_case_id = t.id ∧ e.use_case_id = t.use_case_id ∧
          t.id ∉ completed ∧ t.use_case_id ∈ ucIds) := by
  intro l
  induction l with
  | nil =>
    intro idx st
    exact ⟨[], [], by simp [genLoop], by simp [genLoop], by simp, by simp⟩
  | cons tc rest ih =>
    intro idx st
    by_cases h1 : tc.id ∈ completed
    · obtain ⟨cs, es, hc, he, hcs, hes⟩ := ih (idx + 1) st
      rw [genLoop_cons_skip cfg gw ucIds sp completed idx tc rest st h1]
      refine ⟨cs, es, hc, he, ?_, ?_⟩
      · intro c hc0
        obtain ⟨m1, m2, m3⟩ := hcs c hc0
        exact ⟨List.mem_cons_of_mem _ m1, m2, m3⟩
      · intro e he0
        obtain ⟨t, m1, m2⟩ := hes e he0
        exact ⟨t, List.mem_cons_of_mem _ m1, m2⟩
    · by_cases h2 : tc.use_case_id ∈ ucIds
      · cases hgw : gw idx tc with
        | error e0 =>
          rw [genLoop_cons_err cfg gw ucIds sp completed idx tc rest st e0 h1 h2 hgw]
          refine ⟨[(idx, tc)], [], by simp, by simp, ?_, by simp⟩
          intro c hc0
          rw [List.mem_singleton] at hc0
          subst hc0
          exact ⟨List.mem_cons_self _ _, h1, h2⟩
        | ok payload =>
          rw [genLoop_cons_ok cfg gw ucIds sp completed idx tc rest st payload h1 h2 hgw]
          obtain ⟨cs, es, hc, he, hcs, hes⟩ := ih (idx + 1)
            { st with
              calls := st.calls ++ [(idx, tc)],
              examples := st.examples ++ buildBatch tc (get_format_for_case tc.case idx) 0
                st.counter (payload.normalize.take cfg.n_examples_per_tc),
              counter := st.counter + (buildBatch tc (get_format_for_case tc.case idx) 0
                st.counter (payload.normalize.take cfg.n_examples_per_tc)).length,
              saves := if sp then
                  st.saves ++ [⟨st.examples ++ buildBatch tc (get_format_for_case tc.case idx) 0
                    st.counter (payload.normalize.take cfg.n_examples_per_tc)⟩]
                else st.saves }
          refine ⟨(idx, tc) :: cs,
            buildBatch tc (get_format_for_case tc.case idx) 0 st.counter
              (payload.normalize.take cfg.n_examples_per_tc) ++ es, ?_, ?_, ?_, ?_⟩
          · rw [hc]
            simp
          · rw [he]
            simp
          · intro c hc0
            rcases List.mem_cons.mp hc0 with rfl | hmem
            · exact ⟨List.mem_cons_self _ _, h1, h2⟩
            · obtain ⟨m1, m2, m3⟩ := hcs c hmem
              exact ⟨List.mem_cons_of_mem _ m1, m2, m3⟩
          · intro e he0
            rcases List.mem_append.mp he0 with hb | hmem
            · obtain ⟨hteq, hueq⟩ := buildBatch_fields tc _ _ _ _ e hb
              exact ⟨tc, List.mem_cons_self _ _, hteq, hueq, h1, h2⟩
            · obtain ⟨t, m1, m2⟩ := hes e hmem
              exact ⟨t, List.mem_cons_of_mem _ m1, m2⟩
      · obtain ⟨cs, es, hc, he, hcs, hes⟩ := ih (idx + 1) st
        rw [genLoop_cons_unknown cfg gw ucIds sp completed idx tc rest st h1 h2]
        refine ⟨cs, es, hc, he, ?_, ?_⟩
        · intro c hc0
          obtain ⟨m1, m2, m3⟩ := hcs c hc0
          exact ⟨List.mem_cons_of_mem _ m1, m2, m3⟩
        · intro e he0
          obtain ⟨t, m1, m2⟩ := hes e he0
          exact ⟨t, List.mem_cons_of_mem _ m1, m2⟩

/-- When every gateway call succeeds the loop never reports a failure. -/
lemma genLoop_ok_none (cfg : Config) (gwOk : Nat → TestCase → GwPayload RawExample)
    (ucIds : List String) (sp : Bool) (completed : List String) :
    ∀ (l : List TestCase) (idx : Nat) (st : GenState),
      (genLoop cfg (fun i t => Except.ok (gwOk i t)) ucIds sp completed idx l st).2 = none := by
  intro l
  induction l with
  | nil => intro idx st; rfl
  | cons tc rest ih =>
    intro idx st
    by_cases h1 : tc.id ∈ completed
    · rw [genLoop_cons_skip _ _ _ _ _ _ _ _ _ h1]
      exact ih _ _
    · by_cases h2 : tc.use_case_id ∈ ucIds
      · rw [genLoop_cons_ok _ _ _ _ _ _ _ _ _ (gwOk idx tc) h1 h2 rfl]
        exact ih _ _
      · rw [genLoop_cons_unknown _ _ _ _ _ _ _ _ _ h1 h2]
        exact ih _ _

/-- On a failing run with a save path set, the loop's last persisted
file wraps exactly the accumulated examples and the reported failure is
the failing gateway call's own error. -/
lemma genLoop_err (cfg : Config) (gw : Nat → TestCase → Except String (GwPayload RawExample))
    (ucIds : List String) (completed : List String) :
    ∀ (l : List TestCase) (idx : Nat) (st st' : GenState) (e : String),
      genLoop cfg gw ucIds true completed idx l st = (st', some e) →
        st'.saves.getLast? = some ⟨st'.examples⟩ ∧
        ∃ c, st'.calls.getLast? = some c ∧ gw c.1 c.2 = Except.error e := by
  intro l
  induction l with
  | nil =>
    intro idx st st' e h
    simp [genLoop] at h
  | cons tc rest ih =>
    intro idx st st' e h
    by_cases h1 : tc.id ∈ completed
    · rw [genLoop_cons_skip _ _ _ _ _ _ _ _ _ h1] at h
      exact ih _ _ _ _ h
    · by_cases h2 : tc.use_case_id ∈ ucIds
      · cases hgw : gw idx tc with
        | error e0 =>
          rw [genLoop_cons_err _ _ _ _ _ _ _ _ _ e0 h1 h2 hgw] at h
          injection h with hst hsome
          injection hsome with he
          subst hst
          subst he
          refine ⟨?_, (idx, tc), ?_, hgw⟩
          · simp [List.getLast?_concat]
          · simp [List.getLast?_concat]
        | ok payload =>
          rw [genLoop_cons_ok _ _ _ _ _ _ _ _ _ payload h1 h2 hgw] at h
          exact ih _ _ _ _ h
      · rw [genLoop_cons_unknown _ _ _ _ _ _ _ _ _ h1 h2] at h
        exact ih _ _ _ _ h

/-- Call indices are recorded in strictly increasing loop order, so no
test-case position is ever called twice. -/
lemma genLoop_calls_nodup (cfg : Config) (gw : Nat → TestCase → Except String (GwPayload RawExample))
    (ucIds : List String) (sp : Bool) (completed : List String) :
    ∀ (l : List TestCase) (idx : Nat) (st : GenState),
      (∀ c ∈ st.calls, c.1 < idx) → (st.calls.map Prod.fst).Nodup →
        ((genLoop cfg gw ucIds sp completed idx l st).1.calls.map Prod.fst).Nodup ∧
        (∀ c ∈ (genLoop cfg gw ucIds sp completed idx l st).1.calls, c.1 < idx + l.length) := by
  intro l
  induction l with
  | nil =>
    intro idx st hb hn
    refine ⟨hn, ?_⟩
    intro c hc
    simpa using Nat.lt_of_lt_of_le (hb c hc) (Nat.le_refl idx)
  | cons tc rest ih =>
    intro idx st hb hn
    have hb1 : ∀ c ∈ st.calls ++ [(idx, tc)], c.1 < idx + 1 := by
      intro c hc
      rcases List.mem_append.mp hc with hm | hm
      · exact Nat.lt_succ_of_lt (hb c hm)
      · rw [List.mem_singleton] at hm
        subst hm
        exact Nat.lt_succ_self idx
    have hn1 : ((st.calls ++ [(idx, tc)]).map Prod.fst).Nodup := by
      rw [List.map_append]
      refine List.Nodup.append hn (List.nodup_singleton idx) ?_
      intro a ha hmem
      rw [List.map_singleton, List.mem_singleton] at hmem
      subst hmem
      obtain ⟨c, hc, rfl⟩ := List.mem_map.mp ha
      exact Nat.lt_irrefl _ (hb c hc)
    by_cases h1 : tc.id ∈ completed
    · rw [genLoop_cons_skip _ _ _ _ _ _ _ _ _ h1]
      obtain ⟨ha, hbnd⟩ := ih (idx + 1) st (fun c hc => Nat.lt_succ_of_lt (hb c hc)) hn
      refine ⟨ha, ?_⟩
      intro c hc
      have := hbnd c hc
      simp only [List.length_cons]
      omega
    · by_cases h2 : tc.use_case_id ∈ ucIds
      · cases hgw : gw idx tc with
        | error e0 =>
          rw [genLoop_cons_err _ _ _ _ _ _ _ _ _ e0 h1 h2 hgw]
          refine ⟨hn1, ?_⟩
          intro c hc
          have := hb1 c hc
          simp only [List.length_cons]
          omega
        | ok payload =>
          rw [genLoop_cons_ok _ _ _ _ _ _ _ _ _ payload h1 h2 hgw]
          obtain ⟨ha, hbnd⟩ := ih (idx + 1)
            { st with
              calls := st.calls ++ [(idx, tc)],
              examples := st.examples ++ buildBatch tc (get_format_for_case tc.case idx) 0
                st.counter (payload.normalize.take cfg.n_examples_per_tc),
              counter := st.counter + (buildBatch tc (get_format_for_case tc.case idx) 0
                st.counter (payload.normalize.take cfg.n_examples_per_tc)).length,
              saves := if sp then
                  st.saves ++ [⟨st.examples ++ buildBatch tc (get_format_for_case tc.case idx) 0
                    st.counter (payload.normalize.take cfg.n_examples_per_tc)⟩]
                else st.saves } hb1 hn1
          refine ⟨ha, ?_⟩
          intro c hc
          have := hbnd c hc
          simp only [List.length_cons]
          omega
      · rw [genLoop_cons_unknown _ _ _ _ _ _ _ _ _ h1 h2]
        obtain ⟨ha, hbnd⟩ := ih (idx + 1) st (fun c hc => Nat.lt_succ_of_lt (hb c hc)) hn
        refine ⟨ha, ?_⟩
        intro c hc
        have := hbnd c hc
        simp only [List.length_cons]
        omega

/-- C6: on a resumed run whose gateway calls all succeed, every test
case whose id appears among the successfully parsed persisted examples
is never sent to the gateway and receives no new examples, and the
parsed persisted examples form — unchanged and in order — the prefix of
the stage's output, followed only by examples for non-completed test
cases. -/
theorem dataset_stage_resume (cfg : Config) (gwOk : Nat → TestCase → GwPayload RawExample)
    (use_cases : List UseCase) (raws : List (Option DatasetExample))
    (test_cases : List TestCase) (st : GenState) (err : Option String)
    (hwf : ∀ t ∈ test_cases, wfTestCase t = true)
    (h : generate_dataset cfg (fun i t => Except.ok (gwOk i t)) use_cases true (some raws)
        test_cases = (st, err)) :
    err = none ∧
    (∀ c ∈ st.calls, c.2.id ∉ (raws.filterMap id).map (·.test_case_id)) ∧
    (∃ rest, st.examples = raws.filterMap id ++ rest ∧
      ∀ e ∈ rest, e.test_case_id ∉ (raws.filterMap id).map (·.test_case_id)) := by
  simp only [generate_dataset, if_true, Option.getD_some] at h
  have hfst := congrArg Prod.fst h
  have hsnd := congrArg Prod.snd h
  simp only at hfst hsnd
  refine ⟨?_, ?_, ?_⟩
  · rw [← hsnd]
    exact genLoop_ok_none cfg gwOk _ _ _ test_cases 0 _
  · obtain ⟨cs, es, hc, he, hcs, hes⟩ := genLoop_spec cfg
      (fun i t => Except.ok (gwOk i t)) (use_cases.map (·.id)) true
      ((raws.filterMap id).map (·.test_case_id)) test_cases 0
      { examples := raws.filterMap id, counter := (raws.filterMap id).length + 1,
        calls := [], saves := [] }
    intro c hmem
    rw [← hfst] at hmem
    rw [hc] at hmem
    simp only [List.nil_append] at hmem
    exact (hcs c hmem).2.1
  · obtain ⟨cs, es, hc, he, hcs, hes⟩ := genLoop_spec cfg
      (fun i t => Except.ok (gwOk i t)) (use_cases.map (·.id)) true
      ((raws.filterMap id).map (·.test_case_id)) test_cases 0
      { examples := raws.filterMap id, counter := (raws.filterMap id).length + 1,
        calls := [], saves := [] }
    refine ⟨es, ?_, ?_⟩
    · rw [← hfst]
      exact he
    · intro e hmem
      obtain ⟨t, -, hteq, -, htid, -⟩ := hes e hmem
      rw [hteq]
      exact htid

/-- Witness for C6: resuming past a persisted example for `tc_1` (and
an unparsable record) regenerates only `tc_2`. -/
theorem dataset_stage_resume_witness :
    (∀ t ∈ [tcC6a, tcC6b], wfTestCase t = true) ∧
    ((generate_dataset ⟨8, 5, 2⟩ (fun i t => Except.ok (gwC6 i t)) [ucC6] true
        (some [some exC6, none]) [tcC6a, tcC6b]).2 = none ∧
    (∀ c ∈ (generate_dataset ⟨8, 5, 2⟩ (fun i t => Except.ok (gwC6 i t)) [ucC6] true
        (some [some exC6, none]) [tcC6a, tcC6b]).1.calls,
      c.2.id ∉ (([some exC6, none].filterMap id).map (·.test_case_id))) ∧
    (∃ rest, (generate_dataset ⟨8, 5, 2⟩ (fun i t => Except.ok (gwC6 i t)) [ucC6] true
        (some [some exC6, none]) [tcC6a, tcC6b]).1.examples
          = [some exC6, none].filterMap id ++ rest ∧
      ∀ e ∈ rest, e.test_case_id ∉ (([some exC6, none].filterMap id).map (·.test_case_id)))) :=
  ⟨by decide,
   dataset_stage_resume ⟨8, 5, 2⟩ gwC6 [ucC6] [some exC6, none] [tcC6a, tcC6b]
     (generate_dataset ⟨8, 5, 2⟩ (fun i t => Except.ok (gwC6 i t)) [ucC6] true
       (some [some exC6, none]) [tcC6a, tcC6b]).1
     (generate_dataset ⟨8, 5, 2⟩ (fun i t => Except.ok (gwC6 i t)) [ucC6] true
       (some [some exC6, none]) [tcC6a, tcC6b]).2
     (by decide) rfl⟩

/-- C7: when a gateway call fails mid-loop with a save path set, the
stage's last persisted file wraps exactly the examples accumulated so
far, the re-raised failure is the failing call's own error, and no
test-case position was ever called twice (no stage-level retry). -/
theorem dataset_failure_persists (cfg : Config)
    (gw : Nat → TestCase → Except String (GwPayload RawExample))
    (use_cases : List UseCase) (existing : Option (List (Option DatasetExample)))
    (test_cases : List TestCase) (st : GenState) (e : String)
    (hwf : ∀ t ∈ test_cases, wfTestCase t = true)
    (h : generate_dataset cfg gw use_cases true existing test_cases = (st, some e)) :
    st.saves.getLast? = some ⟨st.examples⟩ ∧
    (∃ c, st.calls.getLast? = some c ∧ gw c.1 c.2 = Except.error e) ∧
    (st.calls.map Prod.fst).Nodup := by
  simp only [generate_dataset, if_true, Option.getD_some] at h
  obtain ⟨hsave, hcall⟩ := genLoop_err cfg gw _ _ test_cases 0 _ st e h
  refine ⟨hsave, hcall, ?_⟩
  have hfst := congrArg Prod.fst h
  simp only at hfst
  rw [← hfst]
  exact (genLoop_calls_nodup cfg gw _ true _ test_cases 0 _ (by simp) (by simp)).1

/-- Witness for C7 on a one-test-case run against an always-failing
gateway. -/
theorem dataset_failure_persists_witness :
    (∀ t ∈ [tcC7], wfTestCase t = true) ∧
    ((generate_dataset ⟨8, 5, 2⟩ gwC7 [ucC7] true none [tcC7]).1.saves.getLast?
        = some ⟨(generate_dataset ⟨8, 5, 2⟩ gwC7 [ucC7] true none [tcC7]).1.examples⟩ ∧
    (∃ c, (generate_dataset ⟨8, 5, 2⟩ gwC7 [ucC7] true none [tcC7]).1.calls.getLast? = some c ∧
      gwC7 c.1 c.2 = Except.error ("boom")) ∧
    ((generate_dataset ⟨8, 5, 2⟩ gwC7 [ucC7] true none [tcC7]).1.calls.map Prod.fst).Nodup) :=
  ⟨by decide,
   dataset_failure_persists ⟨8, 5, 2⟩ gwC7 [ucC7] none [tcC7]
     (generate_dataset ⟨8, 5, 2⟩ gwC7 [ucC7] true none [tcC7]).1 ("boom")
     (by decide) (by decide)⟩

/-- C9: a test case whose `use_case_id` matches no known use case is
silently skipped — it is never sent to the gateway, and (when no
persisted example carries its id) the run ends with zero examples for
it.  Test-case ids are assumed to identify test cases uniquely. -/
theorem dataset_unknown_uc_skip (cfg : Config)
    (gw : Nat → TestCase → Except String (GwPayload RawExample))
    (use_cases : List UseCase) (savePath : Bool)
    (existing : Option (List (Option DatasetExample))) (test_cases : List TestCase)
    (tc : TestCase) (st : GenState) (err : Option String)
    (hwf : ∀ t ∈ test_cases, wfTestCase t = true)
    (hmem : tc ∈ test_cases)
    (hunk : tc.use_case_id ∉ use_cases.map (·.id))
    (hinj : ∀ t ∈ test_cases, ∀ t2 ∈ test_cases, t.id = t2.id → t = t2)
    (hfresh : ∀ e0 ∈ (if savePath then existing.getD [] else []).filterMap id,
        e0.test_case_id ≠ tc.id)
    (h : generate_dataset cfg gw use_cases savePath existing test_cases = (st, err)) :
    (∀ c ∈ st.calls, c.2 ≠ tc) ∧
    st.examples.filter (fun e0 => decide (e0.test_case_id = tc.id)) = [] := by
  simp only [generate_dataset] at h
  have hfst := congrArg Prod.fst h
  simp only at hfst
  obtain ⟨cs, es, hc, he, hcs, hes⟩ := genLoop_spec cfg gw (use_cases.map (·.id)) savePath
    (((if savePath then existing.getD [] else []).filterMap id).map (·.test_case_id))
    test_cases 0
    { examples := (if savePath then existing.getD [] else []).filterMap id,
      counter := ((if savePath then existing.getD [] else []).filterMap id).length + 1,
      calls := [], saves := [] }
  constructor
  · intro c hmemc
    rw [← hfst, hc] at hmemc
    simp only [List.nil_append] at hmemc
    intro hceq
    have h2 := (hcs c hmemc).2.2
    rw [hceq] at h2
    exact hunk h2
  · rw [← hfst, he]
    simp only
    rw [List.filter_append]
    have hp1 : ((if savePath then existing.getD [] else []).filterMap id).filter
        (fun e0 => decide (e0.test_case_id = tc.id)) = [] := by
      rw [List.filter_eq_nil_iff]
      intro e0 hm
      simp only [decide_eq_true_eq]
      exact hfresh e0 hm
    have hp2 : es.filter (fun e0 => decide (e0.test_case_id = tc.id)) = [] := by
      rw [List.filter_eq_nil_iff]
      intro e0 hm
      simp only [decide_eq_true_eq]
      intro heq
      obtain ⟨t, ht, hteq, -, -, htuc⟩ := hes e0 hm
      have : t = tc := hinj t ht tc hmem (by rw [← hteq, heq])
      rw [this] at htuc
      exact hunk htuc
    rw [hp1, hp2]
    rfl

lemma lookupCount_bump (m : List (String × Nat)) (k k' : String) :
    lookupCount (bump m k) k' =
      if k' = k then some ((lookupCount m k').getD 0 + 1) else lookupCount m k' := by
  induction m with
  | nil =>
    by_cases h : k' = k
    · subst h
      simp [bump, lookupCount]
    · simp [bump, lookupCount, h, Ne.symm h]
  | cons p rest ih =>
    obtain ⟨k0, v⟩ := p
    by_cases h0 : k0 = k
    · subst h0
      by_cases h : k' = k0
      · subst h
        simp [bump, lookupCount]
      · simp [bump, lookupCount, h, Ne.symm h]
    · by_cases h : k' = k
      · subst h
        simp [bump, lookupCount, h0, ih]
      · by_cases h2 : k0 = k'
        · subst h2
          simp [bump, lookupCount, h0, h, ih]
        · simp [bump, lookupCount, h0, h, h2, ih]

lemma lookupCount_foldl_bump (l : List String) :
    ∀ (m : List (String × Nat)) (k : String),
      lookupCount (l.foldl bump m) k =
        if k ∈ l then
          some ((lookupCount m k).getD 0 + (l.filter (fun x => decide (x = k))).length)
        else lookupCount m k := by
  induction l with
  | nil => intro m k; simp
  | cons a t ih =>
    intro m k
    rw [List.foldl_cons, ih]
    by_cases hka : k = a
    · subst hka
      by_cases hkt : k ∈ t
      · simp [lookupCount_bump, hkt, List.filter_cons]
        omega
      · simp [lookupCount_bump, hkt, List.filter_cons]
        intro a ha hak
        exact hkt (hak ▸ ha)
    · have hak : ¬ a = k := fun hh => hka hh.symm
      by_cases hkt : k ∈ t
      · simp [lookupCount_bump, hka, hkt, List.filter_cons, hak]
      · simp [lookupCount_bump, hka, hkt, List.filter_cons, hak]

lemma keys_bump (m : List (String × Nat)) (k : String) :
    (bump m k).map Prod.fst =
      if k ∈ m.map Prod.fst then m.map Prod.fst else m.map Prod.fst ++ [k] := by
  induction m with
  | nil => simp [bump]
  | cons p rest ih =>
    obtain ⟨k0, v⟩ := p
    by_cases h0 : k0 = k
    · subst h0
      simp [bump]
    · have h0k : ¬ k = k0 := fun hh => h0 hh.symm
      by_cases hmem : k ∈ rest.map Prod.fst
      · simp [bump, h0, ih, hmem, h0k]
      · simp [bump, h0, ih, hmem, h0k]

lemma nodup_keys_bump (m : List (String × Nat)) (k : String)
    (h : (m.map Prod.fst).Nodup) : ((bump m k).map Prod.fst).Nodup := by
  rw [keys_bump]
  split_ifs with hmem
  · exact h
  · refine List.Nodup.append h (List.nodup_singleton k) ?_
    intro a ha hb
    rw [List.mem_singleton] at hb
    subst hb
    exact hmem ha

lemma nodup_keys_foldl (l : List String) :
    ∀ (m : List (String × Nat)), (m.map Prod.fst).Nodup →
      ((l.foldl bump m).map Prod.fst).Nodup := by
  induction l with
  | nil => intro m h; exact h
  | cons a t ih =>
    intro m h
    rw [List.foldl_cons]
    exact ih _ (nodup_keys_bump m a h)

lemma mem_iff_lookupCount :
    ∀ (m : List (String × Nat)), (m.map Prod.fst).Nodup → ∀ (k : String) (v : Nat),
      ((k, v) ∈ m ↔ lookupCount m k = some v) := by
  intro m
  induction m with
  | nil => intro _ k v; simp [lookupCount]
  | cons p rest ih =>
    obtain ⟨k0, v0⟩ := p
    intro hm k v
    rw [List.map_cons, List.nodup_cons] at hm
    by_cases h : k0 = k
    · subst h
      constructor
      · intro hmem
        rcases List.mem_cons.mp hmem with heq | hmem2
        · rw [Prod.mk.injEq] at heq
          simp [lookupCount, heq.2]
        · exact absurd (List.mem_map.mpr ⟨(k0, v), hmem2, rfl⟩) hm.1
      · intro hl
        rw [lookupCount, if_pos rfl, Option.some.injEq] at hl
        subst hl
        exact List.mem_cons_self _ _
    · constructor
      · intro hmem
        rcases List.mem_cons.mp hmem with heq | hmem2
        · rw [Prod.mk.injEq] at heq
          exact absurd heq.1.symm h
        · rw [lookupCount, if_neg h]
          exact (ih hm.2 k v).mp hmem2
      · intro hl
        rw [lookupCount, if_neg h] at hl
        exact List.mem_cons_of_mem _ ((ih hm.2 k v).mpr hl)

lemma tcCounts_mem (l : List (Option TestCase)) (k : String)
    (h : 0 < countValidTC l k) : (k, countValidTC l k) ∈ tcCounts l := by
  have hmemids : k ∈ (l.filterMap id).map (·.use_case_id) := by
    rw [countValidTC] at h
    obtain ⟨x, hx⟩ := List.exists_mem_of_length_pos h
    obtain ⟨hx1, hx2⟩ := List.mem_filter.mp hx
    have := of_decide_eq_true hx2
    subst this
    exact hx1
  have hnodup : ((tcCounts l).map Prod.fst).Nodup := by
    rw [tcCounts]
    exact nodup_keys_foldl _ [] (by simp)
  rw [mem_iff_lookupCount (tcCounts l) hnodup, tcCounts, lookupCount_foldl_bump,
    if_pos hmemids]
  simp [lookupCount, countValidTC]

lemma mem_floorErrors (m : List (String × Nat)) (k : String) (c : Nat) (hc : c < 3)
    (hm : (k, c) ∈ m) : VError.ucFloor k c ∈ floorErrors m := by
  rw [floorErrors]
  exact List.mem_filterMap.mpr ⟨(k, c), hm, by simp [hc]⟩

/-- C1 (amended: the use-case id must be referenced by at least one
schema-valid test case): for any id referenced by 1 or 2 schema-valid
test cases the validator reports the per-use-case floor error; for an id
with zero test cases no such error exists (see the counterexample). -/
theorem validator_tc_floor (manifest_bad : Bool) (uc_raw : Wrapped (Option UseCase))
    (pol_raw : Wrapped (Option Policy)) (tc_raw : Wrapped (Option TestCase))
    (ds_raw : Wrapped DsRecord) (input_lines : Option (List String)) (k : String)
    (hpres : k ∈ ucIdsOf uc_raw.items)
    (h1 : 0 < countValidTC tc_raw.items k) (h2 : countValidTC tc_raw.items k < 3) :
    VError.ucFloor k (countValidTC tc_raw.items k)
      ∈ (validateContent manifest_bad uc_raw pol_raw tc_raw ds_raw input_lines).errors := by
  have hf := mem_floorErrors (tcCounts tc_raw.items) k (countValidTC tc_raw.items k) h2
    (tcCounts_mem tc_raw.items k h1)
  simp only [validateContent, List.mem_append]
  tauto

/-- Witness for C1's amended statement: a use case referenced by exactly
one schema-valid test case draws the floor error. -/
theorem validator_tc_floor_witness :
    (("uc_1") ∈ ucIdsOf (Wrapped.wrapped [some ⟨"uc_1", "support_bot", "n", "d", [evC1]⟩]
        : Wrapped (Option UseCase)).items ∧
     0 < countValidTC [some ⟨"tc_1", "support_bot", "uc_1", ["pol_1"]⟩] ("uc_1") ∧
     countValidTC [some ⟨"tc_1", "support_bot", "uc_1", ["pol_1"]⟩] ("uc_1") < 3) ∧
    VError.ucFloor ("uc_1") (countValidTC [some ⟨"tc_1", "support_bot", "uc_1", ["pol_1"]⟩] ("uc_1"))
      ∈ (validateContent false (.wrapped [some ⟨"uc_1", "support_bot", "n", "d", [evC1]⟩])
          (.wrapped []) (.wrapped [some ⟨"tc_1", "support_bot", "uc_1", ["pol_1"]⟩])
          (.wrapped []) none).errors :=
  ⟨⟨by decide, by decide, by decide⟩,
   validator_tc_floor false (.wrapped [some ⟨"uc_1", "support_bot", "n", "d", [evC1]⟩])
     (.wrapped []) (.wrapped [some ⟨"tc_1", "support_bot", "uc_1", ["pol_1"]⟩])
     (.wrapped []) none ("uc_1") (by decide) (by decide) (by decide)⟩

/-- Counterexample for C1: `uc_5` is present in the use-cases artifact
with zero schema-valid test cases, yet the report contains no error at
all — the floor loop only visits use-case ids that occur among the test
cases. -/
theorem validator_tc_floor_cex :
    ("uc_5") ∈ ucIdsOf ucsC1 ∧
    countValidTC tcsC1 ("uc_5") = 0 ∧
    (validateContent false (.wrapped ucsC1) (.wrapped polsC1) (.wrapped tcsC1)
        (.wrapped dsC1) none).errors = [] := by
  decide

lemma mem_of_ite_nil {c : Prop} [Decidable c] {l : List VError} {x : VError}
    (h : x ∈ (if c then l else [])) : x ∈ l := by
  split_ifs at h
  · exact h
  · exact absurd h (List.not_mem_nil x)

lemma mem_of_nil_ite {c : Prop} [Decidable c] {l : List VError} {x : VError}
    (h : x ∈ (if c then [] else l)) : x ∈ l := by
  split_ifs at h
  · exact absurd h (List.not_mem_nil x)
  · exact h

lemma shapeErrors_ncov {α : Type} (w : Wrapped α) (c : VError)
    (hc : VError.isCoverage c = false) :
    ∀ x ∈ w.shapeErrors c, VError.isCoverage x = false := by
  cases w with
  | invalid =>
    intro x hx
    rw [List.mem_singleton.mp hx]
    exact hc
  | wrapped l => intro x hx; exact absurd hx (List.not_mem_nil x)
  | bare l => intro x hx; exact absurd hx (List.not_mem_nil x)

lemma ucRecErrors_ncov :
    ∀ (l : List (Option UseCase)) (i : Nat) (x : VError),
      x ∈ ucRecErrors i l → VError.isCoverage x = false := by
  intro l
  induction l with
  | nil => intro i x h; simp [ucRecErrors] at h
  | cons o rest ih =>
    intro i x h
    cases o with
    | none =>
      rw [ucRecErrors] at h
      rcases List.mem_cons.mp h with rfl | h2
      · rfl
      · exact ih _ x h2
    | some uc =>
      rw [ucRecErrors] at h
      exact ih _ x h

lemma polRecErrors_ncov :
    ∀ (l : List (Option Policy)) (i : Nat) (x : VError),
      x ∈ polRecErrors i l → VError.isCoverage x = false := by
  intro l
  induction l with
  | nil => intro i x h; simp [polRecErrors] at h
  | cons o rest ih =>
    intro i x h
    cases o with
    | none =>
      rw [polRecErrors] at h
      rcases List.mem_cons.mp h with rfl | h2
      · rfl
      · exact ih _ x h2
    | some pol =>
      rw [polRecErrors] at h
      exact ih _ x h

lemma tcRecErrors_ncov (ucIds polIds : List String) :
    ∀ (l : List (Option TestCase)) (i : Nat) (x : VError),
      x ∈ tcRecErrors ucIds polIds i l → VError.isCoverage x = false := by
  intro l
  induction l with
  | nil => intro i x h; simp [tcRecErrors] at h
  | cons o rest ih =>
    intro i x h
    cases o with
    | none =>
      rw [tcRecErrors] at h
      rcases List.mem_cons.mp h with rfl | h2
      · rfl
      · exact ih _ x h2
    | some tc =>
      rw [tcRecErrors] at h
      simp only [List.mem_append] at h
      rcases h with ((h | h) | h) | h
      · rw [List.mem_singleton.mp (mem_of_nil_ite h)]
        rfl
      · obtain ⟨pid, -, hpid⟩ := List.mem_filterMap.mp h
        split_ifs at hpid
        rw [Option.some.injEq] at hpid
        rw [← hpid]
        rfl
      · rw [List.mem_singleton.mp (mem_of_ite_nil h)]
        rfl
      · exact ih _ x h

lemma floorErrors_ncov (m : List (String × Nat)) :
    ∀ x ∈ floorErrors m, VError.isCoverage x = false := by
  intro x h
  obtain ⟨p, -, hp⟩ := List.mem_filterMap.mp h
  split_ifs at hp
  rw [Option.some.injEq] at hp
  rw [← hp]
  rfl

lemma noExamplesErrors_ncov (tcIds exTcIds : List String) :
    ∀ x ∈ noExamplesErrors tcIds exTcIds, VError.isCoverage x = false := by
  intro x h
  obtain ⟨t, -, ht⟩ := List.mem_filterMap.mp h
  split_ifs at ht
  rw [Option.some.injEq] at ht
  rw [← ht]
  rfl

lemma sucRoleErrors_ncov (i : Nat) (msgs : List Msg) :
    ∀ x ∈ sucRoleErrors i msgs, VError.isCoverage x = false := by
  intro x hx
  cases msgs with
  | nil => exact absurd hx (List.not_mem_nil x)
  | cons m ms =>
    rw [sucRoleErrors] at hx
    split_ifs at hx
    all_goals first
      | (rw [List.mem_singleton.mp hx]; rfl)
      | exact absurd hx (List.not_mem_nil x)

lemma dltcLastRoleErrors_ncov (i : Nat) (o : Option Msg) :
    ∀ x ∈ dltcLastRoleErrors i o, VError.isCoverage x = false := by
  intro x hx
  cases o with
  | none => exact absurd hx (List.not_mem_nil x)
  | some m =>
    rw [dltcLastRoleErrors] at hx
    split_ifs at hx
    all_goals first
      | (rw [List.mem_singleton.mp hx]; rfl)
      | exact absurd hx (List.not_mem_nil x)

lemma dltcTmiErrors_ncov (i n : Nat) (o : Option Int) :
    ∀ x ∈ dltcTmiErrors i n o, VError.isCoverage x = false := by
  intro x hx
  cases o with
  | none =>
    rw [dltcTmiErrors] at hx
    rw [List.mem_singleton.mp hx]
    rfl
  | some t =>
    rw [dltcTmiErrors] at hx
    split_ifs at hx
    all_goals first
      | (rw [List.mem_singleton.mp hx]; rfl)
      | exact absurd hx (List.not_mem_nil x)

lemma formatChecks_ncov (i : Nat) (ex : DatasetExample) :
    ∀ x ∈ (formatChecks i ex).1, VError.isCoverage x = false := by
  intro x hx
  by_cases h1 : ex.format = "single_utterance_correction"
  · have hfc : (formatChecks i ex).1 = sucRoleErrors i (ex.input.messages.getD []) := by
      simp [formatChecks, h1]
    rw [hfc] at hx
    exact sucRoleErrors_ncov i _ x hx
  · by_cases h2 : ex.format = "dialog_last_turn_correction"
    · have hfc : (formatChecks i ex).1 =
          (if (ex.input.messages.getD []).length < 2 then [VError.dltcMinMessages i] else [])
            ++ dltcLastRoleErrors i (ex.input.messages.getD []).getLast?
            ++ dltcTmiErrors i (ex.input.messages.getD []).length
                ex.input.target_message_index := by
        simp [formatChecks, h1, h2]
      rw [hfc] at hx
      simp only [List.mem_append] at hx
      rcases hx with (hx | hx) | hx
      · rw [List.mem_singleton.mp (mem_of_ite_nil hx)]
        rfl
      · exact dltcLastRoleErrors_ncov i _ x hx
      · exact dltcTmiErrors_ncov i _ _ x hx
    · have hfc : (formatChecks i ex).1 = [] := by
        simp [formatChecks, h1, h2]
      rw [hfc] at hx
      exact absurd hx (List.not_mem_nil x)

lemma exampleErrors_ncov (ucIds tcIds polIds : List String) (i : Nat) (ex : DatasetExample) :
    ∀ x ∈ exampleErrors ucIds tcIds polIds i ex, VError.isCoverage x = false := by
  intro x hx
  rw [exampleErrors] at hx
  simp only [List.mem_append] at hx
  rcases hx with ((((hx | hx) | hx) | hx) | hx) | hx
  · rw [List.mem_singleton.mp (mem_of_nil_ite hx)]
    rfl
  · rw [List.mem_singleton.mp (mem_of_nil_ite hx)]
    rfl
  · obtain ⟨pid, -, hpid⟩ := List.mem_filterMap.mp hx
    split_ifs at hpid
    rw [Option.some.injEq] at hpid
    rw [← hpid]
    rfl
  · rw [List.mem_singleton.mp (mem_of_ite_nil hx)]
    rfl
  · rw [List.mem_singleton.mp (mem_of_ite_nil hx)]
    rfl
  · exact formatChecks_ncov i ex x hx

lemma dsRecErrors_ncov (ucIds tcIds polIds : List String) :
    ∀ (l : List DsRecord) (i : Nat) (x : VError),
      x ∈ dsRecErrors ucIds tcIds polIds i l → VError.isCoverage x = false := by
  intro l
  induction l with
  | nil => intro i x h; simp [dsRecErrors] at h
  | cons r rest ih =>
    intro i x h
    rw [dsRecErrors] at h
    simp only [List.mem_append] at h
    rcases h with h | h
    · rcases hp : r.parsed with _ | ex <;> rw [hp] at h
      · rw [List.mem_singleton.mp h]
        rfl
      · exact exampleErrors_ncov ucIds tcIds polIds i ex x h
    · exact ih _ x h

/-- C10: when the examples list is empty the case-wide coverage check —
which reads the case type from the raw first record — never emits a
coverage error, whatever the other artifacts contain. -/
theorem coverage_needs_first_record (manifest_bad : Bool) (uc_raw : Wrapped (Option UseCase))
    (pol_raw : Wrapped (Option Policy)) (tc_raw : Wrapped (Option TestCase))
    (ds_raw : Wrapped DsRecord) (input_lines : Option (List String))
    (hds : ds_raw.items = []) :
    ∀ e ∈ (validateContent manifest_bad uc_raw pol_raw tc_raw ds_raw input_lines).errors,
      VError.isCoverage e = false := by
  intro e he
  simp only [validateContent, hds, List.mem_append] at he
  rcases he with (((((((((((((h | h) | h) | h) | h) | h) | h) | h) | h) | h) | h) | h) | h) | h) | h
  · rw [List.mem_singleton.mp (mem_of_ite_nil h)]
    rfl
  · exact shapeErrors_ncov uc_raw VError.useCasesShape rfl e h
  · rw [List.mem_singleton.mp (mem_of_ite_nil h)]
    rfl
  · exact ucRecErrors_ncov uc_raw.items 0 e h
  · exact shapeErrors_ncov pol_raw VError.policiesShape rfl e h
  · rw [List.mem_singleton.mp (mem_of_ite_nil h)]
    rfl
  · exact polRecErrors_ncov pol_raw.items 0 e h
  · rw [List.mem_singleton.mp (mem_of_ite_nil h)]
    rfl
  · exact shapeErrors_ncov tc_raw VError.testCasesShape rfl e h
  · exact tcRecErrors_ncov _ _ tc_raw.items 0 e h
  · exact floorErrors_ncov _ e h
  · exact shapeErrors_ncov ds_raw VError.datasetShape rfl e h
  · exact absurd h (by simp [dsRecErrors])
  · exact noExamplesErrors_ncov _ _ e h
  · exact absurd h (by simp [covErrors])

/-- Witness for C10: with an empty wrapped examples list the floor-count
error that does occur is not a coverage error. -/
theorem coverage_needs_first_record_witness :
    (Wrapped.wrapped ([] : List DsRecord)).items = [] ∧
    VError.isCoverage (VError.minUseCases 0) = false :=
  ⟨rfl,
   coverage_needs_first_record false (.wrapped []) (.wrapped []) (.wrapped [])
     (.wrapped []) none rfl (VError.minUseCases 0) (by decide)⟩

/-- Witness for C9: the single test case references `uc_404`, so the
run makes no call and produces no examples for it. -/
theorem dataset_unknown_uc_skip_witness :
    (∀ t ∈ [tcC9], wfTestCase t = true) ∧
    ((∀ c ∈ (generate_dataset ⟨8, 5, 2⟩ gwC9 [ucC9] true none [tcC9]).1.calls, c.2 ≠ tcC9) ∧
    (generate_dataset ⟨8, 5, 2⟩ gwC9 [ucC9] true none [tcC9]).1.examples.filter
        (fun e0 => decide (e0.test_case_id = tcC9.id)) = []) :=
  ⟨by decide,
   dataset_unknown_uc_skip ⟨8, 5, 2⟩ gwC9 [ucC9] true none [tcC9] tcC9
     (generate_dataset ⟨8, 5, 2⟩ gwC9 [ucC9] true none [tcC9]).1
     (generate_dataset ⟨8, 5, 2⟩ gwC9 [ucC9] true none [tcC9]).2
     (by decide) (by decide) (by decide) (by decide) (by decide) rfl⟩

end DG
